/-
Verification of the Green-app-ai forecasting & budget-compliance engine
against its specification.

The repository ships the forecasting core (forecast_engine.py,
budget_import.py, compare_forecast.py) only as documentation
(src/forecast/README.md); the JavaScript front-end code (dashboard.js,
script.js, lang.js) is present in full.  Definitions below are therefore
of two kinds:
  * shallow embeddings of the JavaScript functions that are present
    (carbon scores, month grouping, unit conversions, calculateChanges);
  * models of the missing Python forecasting core, marked
    `Modelled from the spec:` in their doc comments, faithful to the
    spec's wording (§4.2–§4.6).
Real numbers of the program are modelled as rationals, which keeps every
definition executable.
-/
import Mathlib

namespace GreenApp

/-! ## Severity statuses (§4.6) -/

/-- The ordered alert tiers of the comparator. -/
inductive Status where
  | on_track
  | warning
  | medium
  | high
  | critical
deriving DecidableEq, Repr

/-- Modelled from the spec: `compare_forecast.py` is absent from the
repository; §4.6's threshold table applied to `difference_pct`
(`> 20` critical, `10–20` high, `5–10` medium, `0–5` warning, `≤ 0`
on_track, boundaries inclusive on the lower band). -/
def classifyStatus (difference_pct : ℚ) : Status :=
  if difference_pct > 20 then .critical
  else if difference_pct > 10 then .high
  else if difference_pct > 5 then .medium
  else if difference_pct > 0 then .warning
  else .on_track

/-! ## Forecast-versus-budget comparison of one entity (§4.6) -/

/-- One compared entity of a `ComparisonResult`.  `difference_pct` is
`none` when the percentage is unavailable (zero budget sentinel). -/
structure EntityComparison where
  forecast_avg : ℚ
  budget : ℚ
  difference : ℚ
  difference_pct : Option ℚ
  status : Status
deriving DecidableEq, Repr

/-- Modelled from the spec: `compare_forecast.py` is absent from the
repository; §4.6's per-entity comparison: `difference = forecast_avg −
budget`, `difference_pct = difference / budget × 100`; if `budget == 0`
the status is forced to critical when `forecast_avg > 0` and on_track
otherwise, and `difference_pct` is the unavailable sentinel (`none`)
instead of a division by zero. -/
def compareEntity (forecast_avg budget : ℚ) : EntityComparison :=
  if budget = 0 then
    { forecast_avg := forecast_avg
      budget := budget
      difference := forecast_avg - budget
      difference_pct := none
      status := if forecast_avg > 0 then .critical else .on_track }
  else
    let diff := forecast_avg - budget
    let pct := diff / budget * 100
    { forecast_avg := forecast_avg
      budget := budget
      difference := diff
      difference_pct := some pct
      status := classifyStatus pct }

/-! ## Carbon scores (dashboard.js `updateKPIs`, script.js
`recalculateDashboard`) -/

/-- Embedding of dashboard.js `updateKPIs` (lines 242–260): the carbon
score `maxPossibleEmissions > 0 ? Math.max(0, Math.min(100, 100 -
(totalEmissions / maxPossibleEmissions) * 100)) : 0` with
`maxPossibleEmissions = invoicesCount * 1000`. -/
def carbonScoreDashboard (emissions : List ℚ) : ℚ :=
  let totalEmissions := emissions.sum
  let invoicesCount : ℚ := emissions.length
  let maxPossibleEmissions := invoicesCount * 1000
  if maxPossibleEmissions > 0 then
    max 0 (min 100 (100 - totalEmissions / maxPossibleEmissions * 100))
  else 0

/-- Embedding of script.js `recalculateDashboard` (lines 1534–1552): the
carbon score `Math.max(0, Math.min(100, 100 - (avgEmissions / 10)))`
with `avgEmissions = totalInvoices > 0 ? totalEmissions / totalInvoices
: 0`. -/
def carbonScoreUI (emissions : List ℚ) : ℚ :=
  let totalEmissions := emissions.sum
  let totalInvoices : ℚ := emissions.length
  let avgEmissions := if totalInvoices > 0 then totalEmissions / totalInvoices else 0
  max 0 (min 100 (100 - avgEmissions / 10))

/-! ## Weight-unit conversions (lang.js lines 16–22 and 590–601;
dashboard.js has the identical copies) -/

/-- Constant from lang.js: `CONVERSION_FACTORS.KG_TO_LBS = 2.20462`. -/
def KG_TO_LBS : ℚ := 220462 / 100000

/-- Constant from lang.js: `CONVERSION_FACTORS.LBS_TO_KG = 0.453592`. -/
def LBS_TO_KG : ℚ := 453592 / 1000000

/-- Embedding of lang.js `kgToLbs`: returns `kg * CONVERSION_FACTORS.KG_TO_LBS`. -/
def kgToLbs (kg : ℚ) : ℚ := kg * KG_TO_LBS

/-- Embedding of lang.js `lbsToKg`: returns `lbs * CONVERSION_FACTORS.LBS_TO_KG`. -/
def lbsToKg (lbs : ℚ) : ℚ := lbs * LBS_TO_KG

/-! ## Trend estimation (§4.2) and forecast projection (§4.4) -/

/-- Trend direction of a fitted series. -/
inductive Direction where
  | increasing
  | decreasing
  | stable
deriving DecidableEq, Repr

/-- A fitted linear trend with the degraded-mode flag of §4.2. -/
structure TrendModel where
  slope : ℚ
  intercept : ℚ
  direction : Direction
  degraded : Bool
deriving DecidableEq, Repr

/-- Sum of the period indices 0..n-1 as rationals. -/
def sumIdx (n : ℕ) : ℚ := ((List.range n).map fun i => (i : ℚ)).sum

/-- Sum of the squared period indices 0..n-1 as rationals. -/
def sumIdxSq (n : ℕ) : ℚ := ((List.range n).map fun i => (i : ℚ) ^ 2).sum

/-- Sum of index × value over a series. -/
def sumIdxMul (series : List ℚ) : ℚ :=
  (series.enum.map fun p => (p.1 : ℚ) * p.2).sum

/-- Direction from a slope and the noise threshold ε of §3: increasing
if slope > ε, decreasing if slope < −ε, else stable. -/
def directionOf (eps slope : ℚ) : Direction :=
  if slope > eps then .increasing
  else if slope < -eps then .decreasing
  else .stable

/-- Modelled from the spec: `forecast_engine.py` is absent from the
repository; §4.2's ordinary-least-squares fit of `total_emissions`
against the integer period index, with the documented degenerate
fallback: fewer than 2 periods gives a zero-slope model whose intercept
is the single available value (or 0 with no history), direction stable,
and `degraded = true`.  The noise threshold ε is left unspecified by the
spec and is a parameter here. -/
def fitTrend (eps : ℚ) (series : List ℚ) : TrendModel :=
  if series.length < 2 then
    { slope := 0
      intercept := series.headD 0
      direction := .stable
      degraded := true }
  else
    let n : ℚ := series.length
    let sx := sumIdx series.length
    let sxx := sumIdxSq series.length
    let sy := series.sum
    let sxy := sumIdxMul series
    let slope := (n * sxy - sx * sy) / (n * sxx - sx ^ 2)
    let intercept := (sy - slope * sx) / n
    { slope := slope
      intercept := intercept
      direction := directionOf eps slope
      degraded := false }

/-- One projected period with its confidence interval. -/
structure ForecastPoint where
  point_estimate : ℚ
  lower_bound : ℚ
  upper_bound : ℚ
deriving DecidableEq, Repr

/-- Modelled from the spec: `forecast_engine.py` is absent from the
repository; §4.4's per-period projection: `point_estimate = max 0
(trend_value × seasonal_factor)`, bounds `point_estimate ∓
residual_std_error` with the lower bound clamped at 0. -/
def makeForecastPoint (trendValue seasonalFactor stdError : ℚ) : ForecastPoint :=
  let pe := max 0 (trendValue * seasonalFactor)
  { point_estimate := pe
    lower_bound := max 0 (pe - stdError)
    upper_bound := pe + stdError }

/-- Modelled from the spec: §4.4's projector evaluates the trend at the
next `periods` period indices after the `histLen` historical ones,
multiplies by that future period's seasonal factor (1 when no profile
is available), and attaches the single scalar residual-std-error bound
to every point. -/
def projectForecast (tm : TrendModel) (seasonal : ℕ → ℚ) (stdError : ℚ)
    (histLen periods : ℕ) : List ForecastPoint :=
  (List.range periods).map fun i =>
    makeForecastPoint (tm.slope * ((histLen + i : ℕ) : ℚ) + tm.intercept)
      (seasonal i) stdError

/-! ## Month grouping (script.js `recalculateDashboard` lines
1563–1575; dashboard.js `updateMonthlyChart` lines 313–335 is the same
group-then-sort shape) -/

/-- One invoice as the dashboard code reads it: a calendar date and an
emission value. -/
structure Invoice where
  year : ℕ
  month : ℕ
  day : ℕ
  emissions : ℚ
deriving DecidableEq, Repr

/-- Month key of an invoice, script.js builds the string
`YYYY-MM-01` from the invoice date; modelled as the (year, month)
pair. -/
def monthKey (inv : Invoice) : ℕ × ℕ := (inv.year, inv.month)

/-- JS object accumulation `m[k] = (m[k] || 0) + v`: add `v` to the
entry of key `k`, appending the entry on first occurrence (JS objects
enumerate such keys in insertion order). -/
def addToKey {K : Type} [DecidableEq K] (m : List (K × ℚ)) (k : K) (v : ℚ) :
    List (K × ℚ) :=
  match m with
  | [] => [(k, v)]
  | e :: rest => if e.1 = k then (e.1, e.2 + v) :: rest else e :: addToKey rest k v

/-- Accumulation of `val x` per `key x` over a record list, in JS
object fashion. -/
def groupTotals {A K : Type} [DecidableEq K] (key : A → K) (val : A → ℚ)
    (xs : List A) : List (K × ℚ) :=
  xs.foldl (fun m x => addToKey m (key x) (val x)) []

/-- Embedding of script.js `byMonth`: emissions summed per month key
over the invoices; only months that occur in the data get an entry. -/
def byMonth (invs : List Invoice) : List ((ℕ × ℕ) × ℚ) :=
  groupTotals monthKey Invoice.emissions invs

/-- Strict chronological (lexicographic year then month) order on month
keys. -/
def keyLt (a b : ℕ × ℕ) : Prop := a.1 < b.1 ∨ (a.1 = b.1 ∧ a.2 < b.2)

/-- Weak chronological order on bucket entries used by the sort,
matching the JS lexicographic string sort of zero-padded `YYYY-MM-01`
keys. -/
def entryLe (e f : (ℕ × ℕ) × ℚ) : Prop :=
  e.1.1 < f.1.1 ∨ (e.1.1 = f.1.1 ∧ e.1.2 ≤ f.1.2)

instance : DecidableRel entryLe := fun e f => by unfold entryLe; exact inferInstance

instance : IsTotal ((ℕ × ℕ) × ℚ) entryLe := ⟨by intro a b; unfold entryLe; omega⟩

instance : IsTrans ((ℕ × ℕ) × ℚ) entryLe := ⟨by intro a b c; unfold entryLe; omega⟩

/-- Embedding of the script.js timeline:
`Object.entries(byMonth).sort(([a],[b]) => a.localeCompare(b))` — the
monthly buckets sorted chronologically. -/
def timeline (invs : List Invoice) : List ((ℕ × ℕ) × ℚ) :=
  List.insertionSort entryLe (byMonth invs)

/-- The calendar month exactly one period-length after `k` at monthly
frequency. -/
def nextMonth (k : ℕ × ℕ) : ℕ × ℕ :=
  if k.2 = 12 then (k.1 + 1, 1) else (k.1, k.2 + 1)

/-! ## Quarterly aggregation from the monthly series (§4.1) -/

/-- Calendar quarter of a month key: Q1 = months 1–3, Q2 = 4–6, Q3 =
7–9, Q4 = 10–12. -/
def quarterOf (k : ℕ × ℕ) : ℕ × ℕ := (k.1, (k.2 - 1) / 3 + 1)

/-- Modelled from the spec: `forecast_engine.py` is absent from the
repository; §4.1's quarterly aggregation is defined as the
quarter-keyed regrouping of the pre-computed monthly buckets, not an
independent re-aggregation of the records. -/
def quarterlyFromMonthly (monthly : List ((ℕ × ℕ) × ℚ)) :
    List ((ℕ × ℕ) × ℚ) :=
  groupTotals (fun e => quarterOf e.1) Prod.snd monthly

/-- Aggregate figure a bucket list reports for key `k`: the sum of the
values of its entries carrying that key. -/
def totalFor {K : Type} [DecidableEq K] (m : List (K × ℚ)) (k : K) : ℚ :=
  ((m.filter fun e => decide (e.1 = k)).map Prod.snd).sum

/-! ## Period-over-period changes (dashboard.js `calculateChanges`
lines 272–280) -/

/-- The four change indicators returned by `calculateChanges`. -/
structure Changes where
  emissions : ℚ
  invoices : ℚ
  avg : ℚ
  score : ℚ
deriving DecidableEq, Repr

/-- Embedding of dashboard.js `calculateChanges`: each field evaluates
the expression
`Math.random() > 0.5 ? (Math.random() * c) : -(Math.random() * c)`,
consuming two draws of the ambient random stream `r` — one for the sign
test, one for the magnitude; the dashboard data is not consulted at
all. -/
def calculateChanges (r : ℕ → ℚ) : Changes :=
  { emissions := if r 0 > 1/2 then r 1 * 20 else -(r 1 * 20)
    invoices := if r 2 > 1/2 then r 3 * 15 else -(r 3 * 15)
    avg := if r 4 > 1/2 then r 5 * 10 else -(r 5 * 10)
    score := if r 6 > 1/2 then r 7 * 5 else -(r 7 * 5) }

/-! ## Budget import and validation (§4.5; `budget_import.py` is absent
from the repository) -/

/-- A cell of the tabular budget input: a numeric or a textual value. -/
inductive Cell where
  | num (q : ℚ)
  | text (s : String)
deriving DecidableEq, Repr

/-- A raw tabular budget input: the header names and the data rows,
each row associating a cell to a column name. -/
structure BudgetTable where
  columns : List String
  rows : List (List (String × Cell))
deriving DecidableEq, Repr

/-- Forecast frequency (§6 invocation parameter). -/
inductive Frequency where
  | monthly
  | quarterly
deriving DecidableEq, Repr

/-- The required category column name (README budget CSV format). -/
def categoryColumn : String := "Categorie"

/-- The recognised budget-figure column names (README: monthly, annual
or unlabeled, unlabeled defaulting to annual). -/
def budgetColumnNames : List String :=
  ["Budget_mensuel", "Budget_monthly", "Budget_annuel", "Budget_annual",
    "Budget_yearly", "Budget"]

/-- The budget column names holding monthly figures. -/
def monthlyBudgetColumns : List String := ["Budget_mensuel", "Budget_monthly"]

/-- Budget-like columns present in a table. -/
def budgetLikeCols (t : BudgetTable) : List String :=
  t.columns.filter fun c => budgetColumnNames.contains c

/-- Modelled from the spec: §4.5/§3 normalization of a budget figure to
the per-period figure of the forecast frequency: monthly columns pass
through at monthly frequency (three per quarter), annual figures are
divided by 12 for a monthly forecast and by 4 for a quarterly one. -/
def normalizeBudget (isMonthlyCol : Bool) (freq : Frequency) (v : ℚ) : ℚ :=
  if isMonthlyCol then
    match freq with
    | .monthly => v
    | .quarterly => v * 3
  else
    match freq with
    | .monthly => v / 12
    | .quarterly => v / 4

/-- Budget-value errors of the rows given the single budget column `c`:
a missing, non-numeric or negative figure yields one error string. -/
def rowValueErrors (c : String) (rows : List (List (String × Cell))) :
    List String :=
  rows.filterMap fun row =>
    match row.lookup c with
    | some (.num q) => if q < 0 then some "Negative budget value" else none
    | _ => some "Missing or non-numeric budget value"

/-- The category cells of the rows, in order. -/
def rowCategories (rows : List (List (String × Cell))) : List Cell :=
  rows.filterMap fun row => row.lookup categoryColumn

/-- Modelled from the spec: `budget_import.py` is absent from the
repository; §4.5's fatal validation errors as human-readable strings:
missing category column; absent or ambiguous budget-figure column; a
non-numeric or negative budget value in a row. -/
def budgetErrors (t : BudgetTable) : List String :=
  (if t.columns.contains categoryColumn then []
    else ["Missing required column: Categorie"]) ++
  (match budgetLikeCols t with
    | [] => ["Missing budget column"]
    | [c] => rowValueErrors c t.rows
    | _ => ["Ambiguous budget columns: more than one budget-like column"])

/-- Modelled from the spec: §4.5 — a repeated category is flagged as a
validation warning, not an error (the last value wins). -/
def budgetWarnings (t : BudgetTable) : List String :=
  if (rowCategories t.rows).Nodup then []
  else ["Duplicate category: last value wins"]

/-- Dict-style assignment: replace the value of key `k`, or append the
entry when the key is new. -/
def upsert (m : List (Cell × ℚ)) (k : Cell) (v : ℚ) : List (Cell × ℚ) :=
  match m with
  | [] => [(k, v)]
  | e :: rest => if e.1 = k then (k, v) :: rest else e :: upsert rest k v

/-- Incorporation of one budget row into the model mapping: rows with a
category cell and a numeric figure under column `c` assign the
normalized figure to the category, dict-fashion; other rows change
nothing. -/
def applyRow (c : String) (freq : Frequency) (m : List (Cell × ℚ))
    (row : List (String × Cell)) : List (Cell × ℚ) :=
  match row.lookup categoryColumn, row.lookup c with
  | some cat, some (.num q) =>
      upsert m cat (normalizeBudget (monthlyBudgetColumns.contains c) freq q)
  | _, _ => m

/-- Modelled from the spec: the BudgetModel mapping built row by row,
later rows overwriting earlier ones. -/
def buildModel (t : BudgetTable) (freq : Frequency) : List (Cell × ℚ) :=
  match budgetLikeCols t with
  | [c] => t.rows.foldl (applyRow c freq) []
  | _ => []

/-- Modelled from the spec: §4.5/§7 all-or-nothing BudgetModel
construction: any validation error aborts the construction and returns
the structured error list; otherwise the model and the warnings are
returned. -/
def loadBudget (t : BudgetTable) (freq : Frequency) :
    Except (List String) (List (Cell × ℚ) × List String) :=
  if budgetErrors t = [] then .ok (buildModel t freq, budgetWarnings t)
  else .error (budgetErrors t)

/-- Value the model mapping reports for category `k`. -/
def lookupCat (m : List (Cell × ℚ)) (k : Cell) : Option ℚ :=
  match m with
  | [] => none
  | e :: rest => if e.1 = k then some e.2 else lookupCat rest k

/-- Normalized figure carried for `cat` by one row, if any. -/
def rowBudgetFor (c : String) (freq : Frequency) (cat : Cell)
    (row : List (String × Cell)) : Option ℚ :=
  match row.lookup categoryColumn, row.lookup c with
  | some cat2, some (.num q) =>
      if cat2 = cat then
        some (normalizeBudget (monthlyBudgetColumns.contains c) freq q)
      else none
  | _, _ => none

/-- Normalized figure of the last row carrying category `cat` with a
numeric budget value. -/
def lastBudgetFor (t : BudgetTable) (freq : Frequency) (cat : Cell) :
    Option ℚ :=
  match budgetLikeCols t with
  | [c] => t.rows.reverse.findSome? (rowBudgetFor c freq cat)
  | _ => none

end GreenApp

namespace GreenApp

/-! ## Theorems -/

/-- Claim C1: the severity status of a compared entity is a function of
`difference_pct` alone through the banded table: above 20 critical,
(10, 20] high, (5, 10] medium, (0, 5] warning, and at or below 0
on_track; in particular the boundary values 5, 10, 20 fall in the
lower-severity band. -/
theorem classifyStatus_bands (d : ℚ) :
    (classifyStatus d = .critical ↔ 20 < d) ∧
    (classifyStatus d = .high ↔ 10 < d ∧ d ≤ 20) ∧
    (classifyStatus d = .medium ↔ 5 < d ∧ d ≤ 10) ∧
    (classifyStatus d = .warning ↔ 0 < d ∧ d ≤ 5) ∧
    (classifyStatus d = .on_track ↔ d ≤ 0) ∧
    classifyStatus 5 = .warning ∧
    classifyStatus 10 = .medium ∧
    classifyStatus 20 = .high := by
  refine ⟨?_, ?_, ?_, ?_, ?_, by norm_num [classifyStatus],
      by norm_num [classifyStatus], by norm_num [classifyStatus]⟩ <;>
    (unfold classifyStatus; split_ifs <;> simp <;> try constructor) <;>
    intros <;> linarith

/-- Claim C2: with a zero budget the comparator raises no division error: the
reported `difference_pct` is the unavailable sentinel (`none`) rather
than NaN or infinity, and the status is critical exactly when
`forecast_avg > 0`, on_track otherwise. -/
theorem compareEntity_zero_budget (forecast_avg : ℚ) :
    (compareEntity forecast_avg 0).difference_pct = none ∧
    (compareEntity forecast_avg 0).status =
      (if 0 < forecast_avg then Status.critical else Status.on_track) := by
  unfold compareEntity
  simp

/-- Claim C9: for every list of invoices, empty included, both carbon-score
computations return a value in the closed interval [0, 100]. -/
theorem carbonScore_in_range (emissions : List ℚ) :
    0 ≤ carbonScoreDashboard emissions ∧ carbonScoreDashboard emissions ≤ 100 ∧
    0 ≤ carbonScoreUI emissions ∧ carbonScoreUI emissions ≤ 100 := by
  unfold carbonScoreDashboard carbonScoreUI
  dsimp only
  refine ⟨?_, ?_, le_max_left _ _, max_le (by norm_num) (min_le_left _ _)⟩
  · split_ifs <;> simp [le_max_iff]
  · split_ifs with h
    · exact max_le (by norm_num) (min_le_left _ _)
    · norm_num

/-- Claim C10 counterexample: the kg→lbs→kg round trip is not the identity:
at 1 kg it returns 0.99999799504 kg, and the two constant factors
multiply to 0.99999799504, not exactly 1. -/
theorem kg_lbs_roundtrip_not_exact :
    lbsToKg (kgToLbs 1) ≠ 1 ∧ KG_TO_LBS * LBS_TO_KG ≠ 1 := by
  constructor
  · unfold lbsToKg kgToLbs KG_TO_LBS LBS_TO_KG; norm_num
  · unfold KG_TO_LBS LBS_TO_KG; norm_num

/-- Claim C10 (amended): the weight-unit conversions are approximate mutual
inverses: for every weight x the round trip `lbsToKg (kgToLbs x)`
equals `x * 0.99999799504`, hence differs from x by at most
3·10⁻⁶·|x|; the two constant factors multiply to 0.99999799504. -/
theorem kg_lbs_roundtrip_approx (x : ℚ) :
    lbsToKg (kgToLbs x) = x * (99999799504 / 100000000000) ∧
    |lbsToKg (kgToLbs x) - x| ≤ |x| * (3 / 1000000) ∧
    KG_TO_LBS * LBS_TO_KG = 99999799504 / 100000000000 := by
  refine ⟨?_, ?_, by unfold KG_TO_LBS LBS_TO_KG; norm_num⟩
  · unfold lbsToKg kgToLbs KG_TO_LBS LBS_TO_KG; ring
  · have h : lbsToKg (kgToLbs x) - x = x * (-200496 / 100000000000) := by
      unfold lbsToKg kgToLbs KG_TO_LBS LBS_TO_KG; ring
    rw [h, abs_mul]
    have hc : |(-200496 : ℚ) / 100000000000| ≤ 3 / 1000000 := by
      rw [abs_div, abs_neg]; norm_num
    exact mul_le_mul_of_nonneg_left hc (abs_nonneg x)

/-- Claim C3: every forecast point produced by the projector has ordered
bounds `lower_bound ≤ point_estimate ≤ upper_bound` and a nonnegative
lower bound (the residual std error is a standard deviation, hence
nonnegative). -/
theorem projector_bounds (tm : TrendModel) (seasonal : ℕ → ℚ) (stdError : ℚ)
    (histLen periods : ℕ) (h : 0 ≤ stdError) (p : ForecastPoint)
    (hp : p ∈ projectForecast tm seasonal stdError histLen periods) :
    0 ≤ p.lower_bound ∧ p.lower_bound ≤ p.point_estimate ∧
      p.point_estimate ≤ p.upper_bound := by
  unfold projectForecast at hp
  obtain ⟨i, -, rfl⟩ := List.mem_map.mp hp
  unfold makeForecastPoint
  dsimp only
  refine ⟨le_max_left _ _, max_le (le_max_left _ _) ?_, ?_⟩
  · exact sub_le_self _ h
  · exact le_add_of_nonneg_right h

/-- Claim C3 witness: a concrete projector invocation whose point satisfies
the bound ordering. -/
theorem projector_bounds_witness :
    0 ≤ (makeForecastPoint 2 1 1).lower_bound ∧
      (makeForecastPoint 2 1 1).lower_bound ≤ (makeForecastPoint 2 1 1).point_estimate ∧
      (makeForecastPoint 2 1 1).point_estimate ≤ (makeForecastPoint 2 1 1).upper_bound :=
  projector_bounds ⟨0, 2, .stable, true⟩ (fun _ => 1) 1 1 1 (by norm_num)
    (makeForecastPoint 2 1 1)
    (by simp [projectForecast])

/-- Claim C4: with fewer than 2 historical periods the pipeline does not fail:
the trend estimator returns the zero-slope fallback model whose
intercept is the single observed value (or 0 with no history), with
direction stable and `degraded = true`, and every projected point of
the resulting forecast is that constant value (emissions being
nonnegative). -/
theorem trend_fallback_degraded (eps stdError : ℚ) (series : List ℚ)
    (histLen periods : ℕ) (h2 : series.length < 2)
    (hnn : ∀ x ∈ series, 0 ≤ x) (p : ForecastPoint)
    (hp : p ∈ projectForecast (fitTrend eps series) (fun _ => 1) stdError
      histLen periods) :
    fitTrend eps series =
      { slope := 0, intercept := series.headD 0, direction := .stable,
        degraded := true } ∧
    p.point_estimate = series.headD 0 := by
  have hfit : fitTrend eps series =
      { slope := 0, intercept := series.headD 0, direction := .stable,
        degraded := true } := by
    unfold fitTrend
    rw [if_pos h2]
  refine ⟨hfit, ?_⟩
  rw [hfit] at hp
  unfold projectForecast at hp
  obtain ⟨i, -, rfl⟩ := List.mem_map.mp hp
  unfold makeForecastPoint
  dsimp only
  have hhead : 0 ≤ series.headD 0 := by
    cases series with
    | nil => simp
    | cons a t => exact hnn a (List.mem_cons_self a t)
  rw [zero_mul, zero_add, mul_one]
  exact max_eq_right hhead

/-- Claim C4 witness: the single-observation series [5] yields the degraded
zero-slope model with intercept 5 and a constant forecast of 5. -/
theorem trend_fallback_degraded_witness :
    fitTrend 1 [5] =
      { slope := 0, intercept := 5, direction := .stable, degraded := true } ∧
    (makeForecastPoint 5 1 1).point_estimate = 5 := by
  have h := trend_fallback_degraded 1 1 [5] 1 1 (by norm_num)
    (by intro x hx; simp at hx; rw [hx]; norm_num)
    (makeForecastPoint 5 1 1)
    (by simp [projectForecast, fitTrend])
  simpa using h

/-! ### Helper lemmas about JS-object grouping -/

/-- Keys of `addToKey`: unchanged when the key is present, the key
appended otherwise. -/
theorem addToKey_keys {K : Type} [DecidableEq K] (m : List (K × ℚ)) (k : K)
    (v : ℚ) :
    (addToKey m k v).map Prod.fst =
      if k ∈ m.map Prod.fst then m.map Prod.fst
      else m.map Prod.fst ++ [k] := by
  induction m with
  | nil => simp [addToKey]
  | cons e rest ih =>
    simp only [addToKey]
    by_cases h : e.1 = k
    · rw [if_pos h]
      have hmem : k ∈ (e :: rest).map Prod.fst := by simp [← h]
      rw [if_pos hmem]
      simp
    · rw [if_neg h]
      by_cases h2 : k ∈ rest.map Prod.fst
      · have : k ∈ (e :: rest).map Prod.fst := by simp [h2]
        rw [if_pos this]
        simp [ih, h2]
      · have : k ∉ (e :: rest).map Prod.fst := by
          simp only [List.map_cons, List.mem_cons]
          push_neg
          exact ⟨fun hh => h hh.symm, h2⟩
        rw [if_neg this]
        simp [ih, h2]

/-- `addToKey` preserves distinctness of keys. -/
theorem addToKey_keys_nodup {K : Type} [DecidableEq K] (m : List (K × ℚ))
    (k : K) (v : ℚ) (h : (m.map Prod.fst).Nodup) :
    ((addToKey m k v).map Prod.fst).Nodup := by
  rw [addToKey_keys]
  split_ifs with hmem
  · exact h
  · simp [List.nodup_append, h, hmem]

/-- Every key of `addToKey m k v` is a key of `m` or is `k`. -/
theorem addToKey_keys_subset {K : Type} [DecidableEq K] (m : List (K × ℚ))
    (k : K) (v : ℚ) (x : K) (hx : x ∈ (addToKey m k v).map Prod.fst) :
    x ∈ m.map Prod.fst ∨ x = k := by
  rw [addToKey_keys] at hx
  split_ifs at hx with hmem
  · exact .inl hx
  · simpa using List.mem_append.mp hx

/-- The grouping fold keeps bucket keys distinct. -/
theorem groupTotals_fold_keys_nodup {A K : Type} [DecidableEq K] (key : A → K)
    (val : A → ℚ) (xs : List A) (m : List (K × ℚ))
    (h : (m.map Prod.fst).Nodup) :
    (((xs.foldl (fun m x => addToKey m (key x) (val x)) m)).map Prod.fst).Nodup := by
  induction xs generalizing m with
  | nil => exact h
  | cons x xs ih => exact ih _ (addToKey_keys_nodup _ _ _ h)

/-- Every bucket key produced by the grouping fold is a starting key or
the key of some grouped record. -/
theorem groupTotals_fold_keys_source {A K : Type} [DecidableEq K] (key : A → K)
    (val : A → ℚ) (xs : List A) (m : List (K × ℚ)) (k : K)
    (hk : k ∈ ((xs.foldl (fun m x => addToKey m (key x) (val x)) m)).map Prod.fst) :
    k ∈ m.map Prod.fst ∨ ∃ x ∈ xs, key x = k := by
  induction xs generalizing m with
  | nil => exact .inl hk
  | cons x xs ih =>
    rcases ih _ hk with h | ⟨x', hx', hkx⟩
    · rcases addToKey_keys_subset _ _ _ _ h with h2 | h2
      · exact .inl h2
      · exact .inr ⟨x, List.mem_cons_self x xs, h2.symm⟩
    · exact .inr ⟨x', List.mem_cons_of_mem x hx', hkx⟩

/-- Claim C5 counterexample: the aggregated bucket series is not
contiguous: invoices in January and March 2024 only produce the two
buckets (2024, 1) and (2024, 3); the month one period after (2024, 1)
is (2024, 2), which is not the next bucket and appears with no bucket
at all rather than with `total_emissions = 0`. -/
theorem timeline_gap_counterexample :
    timeline [⟨2024, 1, 5, 10⟩, ⟨2024, 3, 7, 5⟩] =
      [((2024, 1), 10), ((2024, 3), 5)] ∧
    nextMonth (2024, 1) = (2024, 2) ∧
    (2024, 2) ∉ (timeline [⟨2024, 1, 5, 10⟩, ⟨2024, 3, 7, 5⟩]).map Prod.fst := by
  refine ⟨rfl, rfl, ?_⟩
  decide

/-- Claim C5 (amended): the aggregated bucket series is sorted strictly
chronologically, but only the months in which at least one record falls
appear as buckets; intermediate empty months are omitted rather than
filled with `total_emissions = 0`, so adjacent buckets need not be one
period-length apart. -/
theorem timeline_sorted_not_gap_filled (invs : List Invoice) :
    ((timeline invs).map Prod.fst).Pairwise keyLt ∧
    ∀ k ∈ (timeline invs).map Prod.fst, ∃ inv ∈ invs, monthKey inv = k := by
  have hperm : List.Perm (timeline invs) (byMonth invs) :=
    List.perm_insertionSort entryLe (byMonth invs)
  constructor
  · have hs : List.Sorted entryLe (timeline invs) :=
      List.sorted_insertionSort entryLe (byMonth invs)
    have hnodup : ((timeline invs).map Prod.fst).Nodup := by
      have h1 : ((byMonth invs).map Prod.fst).Nodup :=
        groupTotals_fold_keys_nodup monthKey Invoice.emissions invs []
          (by simp)
      exact ((hperm.map Prod.fst).nodup_iff).mpr h1
    have hne : (timeline invs).Pairwise fun e f => e.1 ≠ f.1 :=
      (List.pairwise_map).mp hnodup
    have hpw : (timeline invs).Pairwise fun e f => entryLe e f ∧ e.1 ≠ f.1 :=
      hs.and hne
    rw [List.pairwise_map]
    refine hpw.imp ?_
    rintro e f ⟨hle, hne2⟩
    unfold entryLe at hle
    unfold keyLt
    rcases hle with h | ⟨h1, h2⟩
    · exact .inl h
    · refine .inr ⟨h1, lt_of_le_of_ne h2 fun h3 => hne2 ?_⟩
      exact Prod.ext h1 h3
  · intro k hk
    have hk2 : k ∈ (byMonth invs).map Prod.fst :=
      ((hperm.map Prod.fst).mem_iff).mp hk
    have := groupTotals_fold_keys_source monthKey Invoice.emissions invs [] k hk2
    simpa using this

/-- Adding `v` under key `k'` raises the reported total of `k` by `v`
exactly when `k' = k`. -/
theorem totalFor_addToKey {K : Type} [DecidableEq K] (m : List (K × ℚ))
    (k' : K) (v : ℚ) (k : K) :
    totalFor (addToKey m k' v) k = totalFor m k + (if k' = k then v else 0) := by
  induction m with
  | nil =>
    by_cases h : k' = k <;> simp [addToKey, totalFor, h]
  | cons e rest ih =>
    simp only [addToKey]
    by_cases h : e.1 = k'
    · rw [if_pos h]
      by_cases h2 : k' = k
      · simp only [totalFor, List.filter_cons, h, h2]
        simp
        ring
      · have h3 : ¬e.1 = k := by rw [h]; exact h2
        simp [totalFor, List.filter_cons, h3, h2]
    · rw [if_neg h]
      by_cases h2 : e.1 = k
      · simp only [totalFor, List.filter_cons, h2] at ih ⊢
        simp only [decide_True, if_true, List.map_cons, List.sum_cons] at *
        simp [ih]
        ring
      · simp only [totalFor, List.filter_cons, h2] at ih ⊢
        simpa [h2] using ih

/-- Total reported for `k` after the grouping fold: the starting total
plus the summed values of the records keyed `k`. -/
theorem totalFor_fold {A K : Type} [DecidableEq K] (key : A → K) (val : A → ℚ)
    (xs : List A) (m : List (K × ℚ)) (k : K) :
    totalFor (xs.foldl (fun m x => addToKey m (key x) (val x)) m) k =
      totalFor m k + ((xs.filter fun x => decide (key x = k)).map val).sum := by
  induction xs generalizing m with
  | nil => simp
  | cons x xs ih =>
    simp only [List.foldl_cons, List.filter_cons]
    rw [ih, totalFor_addToKey]
    by_cases h : key x = k <;> (simp [h]; try ring)

/-- The grouped total of key `k` is the sum of the values of the
records keyed `k`. -/
theorem totalFor_groupTotals {A K : Type} [DecidableEq K] (key : A → K)
    (val : A → ℚ) (xs : List A) (k : K) :
    totalFor (groupTotals key val xs) k =
      ((xs.filter fun x => decide (key x = k)).map val).sum := by
  unfold groupTotals
  rw [totalFor_fold]
  simp [totalFor]

/-- Claim C6: the quarterly aggregate of any quarter equals the sum of
the monthly buckets of the three months composing that quarter — the
quarterly series being derived by regrouping the pre-computed monthly
buckets, not by re-aggregating records. -/
theorem quarterly_additive (monthly : List ((ℕ × ℕ) × ℚ)) (q : ℕ × ℕ)
    (hq : 1 ≤ q.2) (hm : ∀ e ∈ monthly, 1 ≤ e.1.2) :
    totalFor (quarterlyFromMonthly monthly) q =
      ((monthly.filter fun e =>
          decide (e.1 = (q.1, 3 * q.2 - 2) ∨ e.1 = (q.1, 3 * q.2 - 1) ∨
            e.1 = (q.1, 3 * q.2))).map Prod.snd).sum := by
  unfold quarterlyFromMonthly
  rw [totalFor_groupTotals]
  have hfe : (monthly.filter fun e => decide (quarterOf e.1 = q)) =
      (monthly.filter fun e =>
        decide (e.1 = (q.1, 3 * q.2 - 2) ∨ e.1 = (q.1, 3 * q.2 - 1) ∨
          e.1 = (q.1, 3 * q.2))) := by
    apply List.filter_congr
    intro e he
    have h1 := hm e he
    rw [decide_eq_decide]
    unfold quarterOf
    simp only [Prod.ext_iff]
    omega
  rw [hfe]

/-- Claim C6 witness: with monthly buckets for the four months January
to April 2024, the 2024-Q1 aggregate equals the sum of the January,
February and March buckets. -/
theorem quarterly_additive_witness :
    totalFor (quarterlyFromMonthly
        [((2024, 1), 10), ((2024, 2), 20), ((2024, 3), 30), ((2024, 4), 40)])
      (2024, 1) =
      (([((2024, 1), (10 : ℚ)), ((2024, 2), 20), ((2024, 3), 30),
          ((2024, 4), 40)].filter fun e =>
          decide (e.1 = (2024, 3 * 1 - 2) ∨ e.1 = (2024, 3 * 1 - 1) ∨
            e.1 = (2024, 3 * 1))).map Prod.snd).sum :=
  quarterly_additive
    [((2024, 1), 10), ((2024, 2), 20), ((2024, 3), 30), ((2024, 4), 40)]
    (2024, 1) (by norm_num) (by decide)

/-- Claim C7 counterexample: dashboard.js `calculateChanges` is not a
deterministic function of the dashboard data: it reads no data at all,
and two invocations under different ambient `Math.random()` draws
return different change structures, so running it twice on the same
data need not give bit-identical outputs. -/
theorem calculateChanges_not_deterministic :
    calculateChanges (fun _ => 3 / 4) ≠ calculateChanges (fun _ => 1 / 4) := by
  intro h
  have h2 := congrArg Changes.emissions h
  norm_num [calculateChanges] at h2

/-- Claim C7 (amended): the forecasting-pipeline stages, the comparator
among them, are deterministic pure functions of their inputs — two
comparator invocations with equal forecast averages and budgets produce
identical comparison structures — but dashboard.js `calculateChanges`
is not: its output depends on the ambient random stream, not on the
data. -/
theorem compareEntity_deterministic (f b f2 b2 : ℚ) (hf : f = f2)
    (hb : b = b2) : compareEntity f b = compareEntity f2 b2 := by
  rw [hf, hb]

/-- Claim C7 witness: the comparator applied twice at forecast average
50 and budget 40 yields identical results. -/
theorem compareEntity_deterministic_witness :
    compareEntity 50 40 = compareEntity 50 40 :=
  compareEntity_deterministic 50 40 50 40 rfl rfl

/-! ### Helper lemmas about the budget model mapping -/

/-- Dict assignment then lookup: the assigned key reads back the new
value, other keys are unchanged. -/
theorem lookupCat_upsert (m : List (Cell × ℚ)) (k : Cell) (v : ℚ)
    (cat : Cell) :
    lookupCat (upsert m k v) cat =
      if k = cat then some v else lookupCat m cat := by
  induction m with
  | nil => simp [upsert, lookupCat]
  | cons e rest ih =>
    simp only [upsert]
    by_cases h : e.1 = k
    · rw [if_pos h]
      by_cases h2 : k = cat
      · simp [lookupCat, h2]
      · have h3 : ¬e.1 = cat := fun hh => h2 (h.symm.trans hh)
        simp [lookupCat, h2, h3]
    · rw [if_neg h]
      simp only [lookupCat]
      by_cases h2 : e.1 = cat
      · have h3 : ¬k = cat := fun hh => h (h2.trans hh.symm)
        simp [h2, h3]
      · simp [h2, ih]

/-- One row incorporated then looked up: the row's own figure for the
category wins; otherwise the previous model answers. -/
theorem lookupCat_applyRow (c : String) (freq : Frequency)
    (m : List (Cell × ℚ)) (row : List (String × Cell)) (cat : Cell) :
    lookupCat (applyRow c freq m row) cat =
      (rowBudgetFor c freq cat row).or (lookupCat m cat) := by
  unfold applyRow rowBudgetFor
  cases h1 : row.lookup categoryColumn with
  | none => simp
  | some cat2 =>
    cases h2 : row.lookup c with
    | none => simp
    | some cell =>
      cases cell with
      | text s => simp
      | num q =>
        simp only
        rw [lookupCat_upsert]
        by_cases h3 : cat2 = cat <;> simp [h3, Option.or]

/-- Folding the rows into the model and looking a category up returns
the figure of the last matching row, falling back to the initial
model. -/
theorem lookupCat_fold (c : String) (freq : Frequency)
    (rows : List (List (String × Cell))) (m : List (Cell × ℚ))
    (cat : Cell) :
    lookupCat (rows.foldl (applyRow c freq) m) cat =
      (rows.reverse.findSome? (rowBudgetFor c freq cat)).or
        (lookupCat m cat) := by
  induction rows generalizing m with
  | nil => simp
  | cons row rows ih =>
    simp only [List.foldl_cons, List.reverse_cons, List.findSome?_append]
    rw [ih, lookupCat_applyRow]
    have hsingle : List.findSome? (rowBudgetFor c freq cat) [row] =
        rowBudgetFor c freq cat row := by
      cases h : rowBudgetFor c freq cat row <;>
        simp [List.findSome?, h]
    rw [hsingle, Option.or_assoc]

/-- Claim C8: BudgetModel construction is all-or-nothing: a missing
category column, an absent or ambiguous budget-figure column, or a
non-numeric or negative budget value each force a nonempty structured
list of human-readable error strings, and construction then returns
that error list and no model; with no errors construction succeeds, a
repeated category yields only a nonempty warning list, and the model
maps every category to the normalized figure of its last matching
row. -/
theorem budget_validation_all_or_nothing (t : BudgetTable)
    (freq : Frequency) :
    (budgetErrors t ≠ [] → loadBudget t freq = .error (budgetErrors t)) ∧
    (¬t.columns.contains categoryColumn = true → budgetErrors t ≠ []) ∧
    (budgetLikeCols t = [] → budgetErrors t ≠ []) ∧
    (2 ≤ (budgetLikeCols t).length → budgetErrors t ≠ []) ∧
    (∀ c, budgetLikeCols t = [c] → rowValueErrors c t.rows ≠ [] →
      budgetErrors t ≠ []) ∧
    (budgetErrors t = [] →
      loadBudget t freq = .ok (buildModel t freq, budgetWarnings t) ∧
      (¬(rowCategories t.rows).Nodup → budgetWarnings t ≠ [])) ∧
    (∀ cat, lookupCat (buildModel t freq) cat = lastBudgetFor t freq cat) := by
  refine ⟨?_, ?_, ?_, ?_, ?_, ?_, ?_⟩
  · intro h
    unfold loadBudget
    rw [if_neg h]
  · intro h
    unfold budgetErrors
    rw [if_neg h]
    simp
  · intro h
    simp [budgetErrors, h]
  · intro h
    rcases hl : budgetLikeCols t with - | ⟨c, - | ⟨c2, rest⟩⟩
    · rw [hl] at h; simp at h
    · rw [hl] at h; simp at h
    · simp [budgetErrors, hl]
  · intro c hc hv
    unfold budgetErrors
    rw [hc]
    intro hh
    rcases List.append_eq_nil.mp hh with ⟨-, h2⟩
    exact hv h2
  · intro h
    constructor
    · unfold loadBudget
      rw [if_pos h]
    · intro hdup
      unfold budgetWarnings
      rw [if_neg hdup]
      simp
  · intro cat
    unfold buildModel lastBudgetFor
    rcases hl : budgetLikeCols t with - | ⟨c, - | ⟨c2, rest⟩⟩
    · simp [lookupCat]
    · simp only
      rw [lookupCat_fold]
      simp [lookupCat]
    · simp [lookupCat]

/-- Claim C8 witness: the README scenario — a budget table missing the
category column is rejected with a nonempty error list and no model. -/
theorem budget_validation_witness :
    loadBudget (BudgetTable.mk ["Budget"] [[("Budget", Cell.num 100)]])
        Frequency.monthly =
      Except.error (budgetErrors
        (BudgetTable.mk ["Budget"] [[("Budget", Cell.num 100)]])) ∧
    budgetErrors (BudgetTable.mk ["Budget"] [[("Budget", Cell.num 100)]]) ≠
      [] := by
  have h := budget_validation_all_or_nothing
    (BudgetTable.mk ["Budget"] [[("Budget", Cell.num 100)]]) Frequency.monthly
  have he := h.2.1 (by decide)
  exact ⟨h.1 he, he⟩

end GreenApp
